import Mathlib

/-!
# go-utils: humafiber adapter and recoverer middleware

A shallow embedding of `humafiber/adapter.go`, `humafiber/humafiber.go` and
`recoverer/recoverer.go`.  Go strings are modelled as sequences of runes
(`String`, `List Char`), Go `int`/`int64` as `Int` with explicit wrap-around
where an overflow can happen, interface values of external packages (the
fiber router, the `http.ResponseWriter`, the request tester) as records of
functions or as recorded call traces.
-/

set_option autoImplicit false

namespace GoUtils

/-! ## Go standard library: `strings.ReplaceAll` -/

/-- Scanning loop of `strings.Replace` for a non-empty `old`: the leftmost
occurrence of `old` is replaced by `new`, the scan resumes right after the
occurrence (so matches never overlap).  `skip` counts the runes of an
occurrence that still have to be passed over. -/
def replaceScan (old new : List Char) : Nat → List Char → List Char
  | _, [] => []
  | skip + 1, _ :: cs => replaceScan old new skip cs
  | 0, c :: cs =>
    if old.isPrefixOf (c :: cs) then new ++ replaceScan old new (old.length - 1) cs
    else c :: replaceScan old new 0 cs

/-- Go `strings.ReplaceAll(s, old, new)` on rune sequences: `s` itself when
`old == new`; for an empty `old` a copy of `new` before every rune and one at
the end; otherwise every non-overlapping occurrence of `old` replaced. -/
def stringsReplaceAllRunes (s old new : List Char) : List Char :=
  if old = new then s
  else if old = [] then new ++ s.flatMap (fun c => c :: new)
  else replaceScan old new 0 s

/-- Go `strings.ReplaceAll` on strings. -/
def stringsReplaceAll (s old new : String) : String :=
  ⟨stringsReplaceAllRunes s.data old.data new.data⟩

/-! ## huma and fiber data -/

/-- Go `any` values used as context keys and values; `nil` is the nil interface. -/
inductive GoAny where
  | nil
  | str (s : String)
  | int (i : Int)
  | bool (b : Bool)
  deriving DecidableEq, Repr

/-- Go `error` values (`none` of `Option Error` is the nil error). -/
structure Error where
  msg : String
  deriving DecidableEq, Repr

/-- The part of `huma.Operation` the adapter reads. -/
structure Operation where
  Method : String
  Path : String
  deriving DecidableEq, Repr

/-- The `Value` method of a `context.Context`. -/
structure StdContext where
  Value : GoAny → GoAny

/-- The user values of a fasthttp `RequestCtx`: key/value pairs in storage
order. -/
structure RequestCtx where
  userValues : List (GoAny × GoAny)

/-- The response under construction of a fiber context.  `statusCode` is the
status as the response reports and sends it. -/
structure Response where
  statusCode : Int
  contentType : String
  header : List (String × String)
  body : String

/-- A `fiber.Ctx`: the fasthttp request context (possibly nil), the context
returned by `c.Context()`, and the response. -/
structure Ctx where
  requestCtx : Option RequestCtx
  context : StdContext
  response : Response

/-- Model of `contextWrapperValue`. -/
structure contextWrapperValue where
  Key : GoAny
  Value : GoAny
  deriving DecidableEq, Repr

/-- Model of `contextWrapper`. -/
structure contextWrapper where
  values : List contextWrapperValue
  Context : StdContext

/-- Model of `fiberContextWrapper`. -/
structure fiberContextWrapper where
  Context : StdContext
  fiberCtx : Ctx

/-- Model of `fiberWrapper`. -/
structure fiberWrapper where
  op : Operation
  status : Int
  orig : Ctx
  ctx : Option contextWrapper

/-- A `huma.Context` interface value: either a `*fiberWrapper` or a value of
some other implementation (named by its dynamic type). -/
inductive HumaContext where
  | fiberWrapper (w : fiberWrapper)
  | other (dynamicType : String)

/-- The value of a panic as `recover()` returns it.  From Go 1.21 on it is
never nil (`panic(nil)` is turned into a runtime error). -/
inductive PanicValue where
  | str (s : String)
  | err (e : Error)
  | runtimeError (s : String)
  deriving DecidableEq, Repr

/-- What a Go call ends in: a normal return or a panic with a value. -/
inductive Outcome (α : Type) where
  | returned (a : α)
  | panicked (v : PanicValue)

/-! ## humafiber.go: the merged context -/

/-- fasthttp `RequestCtx.UserValue(key)`: the value of the first stored pair
whose key equals `key`, nil when there is none. -/
def RequestCtx.UserValue (rc : RequestCtx) (key : GoAny) : GoAny :=
  match rc.userValues.find? (fun kv => kv.1 = key) with
  | some kv => kv.2
  | none => GoAny.nil

/-- fasthttp `RequestCtx.VisitUserValuesAll(visitor)`: the visitor runs once
per stored pair, in storage order; `σ` is the state the visitor updates. -/
def RequestCtx.VisitUserValuesAll {σ : Type} (rc : RequestCtx)
    (visitor : σ → GoAny → GoAny → σ) (init : σ) : σ :=
  rc.userValues.foldl (fun st kv => visitor st kv.1 kv.2) init

/-- fiber `c.Locals(key)` with a non-nil request context: reads the user
value. -/
def Ctx.Locals (rc : RequestCtx) (key : GoAny) : GoAny :=
  rc.UserValue key

/-- Model of `(*fiberContextWrapper).Value`. -/
def fiberContextWrapper.Value (w : fiberContextWrapper) (key : GoAny) : GoAny :=
  let val := w.Context.Value key
  if val ≠ GoAny.nil then val
  else
    match w.fiberCtx.requestCtx with
    | some rc =>
      let val := Ctx.Locals rc key
      if val ≠ GoAny.nil then val else GoAny.nil
    | none => GoAny.nil

/-- The `for _, pair := range c.values` loop of `(*contextWrapper).Value`. -/
def contextWrapper.lookup (key : GoAny) : List contextWrapperValue → GoAny
  | [] => GoAny.nil
  | pair :: rest => if pair.Key = key then pair.Value else contextWrapper.lookup key rest

/-- Model of `(*contextWrapper).Value`. -/
def contextWrapper.Value (c : contextWrapper) (key : GoAny) : GoAny :=
  let raw := c.Context.Value key
  if raw ≠ GoAny.nil then raw
  else contextWrapper.lookup key c.values

/-- Model of `(*fiberWrapper).Context`. -/
def fiberWrapper.Context (c : fiberWrapper) : fiberContextWrapper :=
  { Context := c.orig.context, fiberCtx := c.orig }

/-! ## humafiber.go: status and unwrap -/

/-- fiber `c.Status(code)`: sets the status of the response.  fasthttp
stores the code as given and reads a stored 0 back, and sends it, as 200
(`StatusOK`), so the status the response reports after the call is 200 for the
code 0 and the code itself otherwise. -/
def Ctx.Status (c : Ctx) (code : Int) : Ctx :=
  { c with response := { c.response with statusCode := if code = 0 then 200 else code } }

/-- Model of `(*fiberWrapper).SetStatus`. -/
def fiberWrapper.SetStatus (c : fiberWrapper) (code : Int) : fiberWrapper :=
  let orig := c.orig
  { c with status := code, orig := orig.Status code }

/-- Model of `(*fiberWrapper).Status`. -/
def fiberWrapper.Status (c : fiberWrapper) : Int :=
  c.status

/-- Model of `(*fiberWrapper).Unwrap`. -/
def fiberWrapper.Unwrap (c : fiberWrapper) : Ctx :=
  c.orig

/-- Model of the package function `Unwrap`. -/
def Unwrap (ctx : HumaContext) : Outcome Ctx :=
  match ctx with
  | HumaContext.fiberWrapper c => Outcome.returned c.Unwrap
  | HumaContext.other _ => Outcome.panicked (PanicValue.str "not a humafiber context")

/-! ## humafiber.go: route registration -/

/-- A `fiber.Handler` whose effect, when it returns, is a value of `α`
together with the returned error. -/
abbrev Handler (α : Type) := Ctx → Outcome (α × Option Error)

/-- The interface `router` of humafiber.go; `ρ` is the effect of a
registration. -/
structure router (H ρ : Type) where
  Add : String → String → List H → ρ

/-- The closure that `Handle` registers: it snapshots the user values of the
request context, wraps `c` and calls the huma handler.  A nil request context
makes `VisitUserValuesAll` dereference nil. -/
def handleClosure {α : Type} (op : Operation) (handler : HumaContext → α) : Handler α :=
  fun c =>
    match c.requestCtx with
    | none => Outcome.panicked (PanicValue.runtimeError "invalid memory address or nil pointer dereference")
    | some rc =>
      let values := rc.VisitUserValuesAll
        (fun (values : List contextWrapperValue) key value =>
          values ++ [{ Key := key, Value := value }]) []
      Outcome.returned
        (handler (HumaContext.fiberWrapper
          { op := op, status := 0, orig := c,
            ctx := some { values := values, Context := c.context } }),
         none)

/-- Model of `(*fiberAdapter).Handle`, given the adapter's `router` field. -/
def Handle {α ρ : Type} (r : router (Handler α) ρ) (op : Operation)
    (handler : HumaContext → α) : ρ :=
  let path := op.Path
  let path := stringsReplaceAll path "\x7b" ":"
  let path := stringsReplaceAll path "\x7d" ""
  r.Add op.Method path [handleClosure op handler]

/-- The path translation in the words of the specification: every opening
brace becomes a colon, every closing brace is deleted, every other rune is
kept. -/
def translatePathSpec (p : List Char) : List Char :=
  p.flatMap (fun c => if c = '\x7b' then [':'] else if c = '\x7d' then [] else [c])

/-- A router that returns the call it receives. -/
def recordingRouter (H : Type) : router H (String × String × List H) :=
  { Add := fun method path handlers => (method, path, handlers) }

/-! ## adapter.go: the router adapter -/

/-- The registration methods of a `fiber.Router` that the adapter calls; `ρ`
is the router value, each method returns the router to continue with. -/
structure FiberRouter (H ρ : Type) where
  Get : ρ → String → H → ρ
  Post : ρ → String → H → ρ
  Put : ρ → String → H → ρ
  Delete : ρ → String → H → ρ
  Patch : ρ → String → H → ρ
  Head : ρ → String → H → ρ
  Options : ρ → String → H → ρ
  Add : ρ → List String → String → H → ρ

/-- Model of `(*fiberRouterAdapter).Add`; `router` is the field `fra.router`.
The Go constants `http.MethodGet` ... `http.MethodOptions` are the upper-case
method names. -/
def fiberRouterAdapter.Add {H ρ : Type} (R : FiberRouter H ρ) (router : ρ)
    (method path : String) (handlers : List H) : ρ :=
  match method with
  | "GET" => handlers.foldl (fun router h => R.Get router path h) router
  | "POST" => handlers.foldl (fun router h => R.Post router path h) router
  | "PUT" => handlers.foldl (fun router h => R.Put router path h) router
  | "DELETE" => handlers.foldl (fun router h => R.Delete router path h) router
  | "PATCH" => handlers.foldl (fun router h => R.Patch router path h) router
  | "HEAD" => handlers.foldl (fun router h => R.Head router path h) router
  | "OPTIONS" => handlers.foldl (fun router h => R.Options router path h) router
  | _ =>
    let methods := [] ++ [method]
    handlers.foldl (fun router h => R.Add router methods path h) router

/-- The registration function a call goes through. -/
inductive Via where
  | Get | Post | Put | Delete | Patch | Head | Options
  | Add (methods : List String)
  deriving DecidableEq, Repr

/-- One registration call on a router. -/
structure Registration (H : Type) where
  via : Via
  path : String
  handler : H

/-- Issue one registration call on a router. -/
def FiberRouter.call {H ρ : Type} (R : FiberRouter H ρ) (router : ρ) (c : Registration H) : ρ :=
  match c.via with
  | Via.Get => R.Get router c.path c.handler
  | Via.Post => R.Post router c.path c.handler
  | Via.Put => R.Put router c.path c.handler
  | Via.Delete => R.Delete router c.path c.handler
  | Via.Patch => R.Patch router c.path c.handler
  | Via.Head => R.Head router c.path c.handler
  | Via.Options => R.Options router c.path c.handler
  | Via.Add methods => R.Add router methods c.path c.handler

/-- Issue a sequence of registration calls, each on the router the previous
call returned. -/
def FiberRouter.callAll {H ρ : Type} (R : FiberRouter H ρ) (router : ρ)
    (cs : List (Registration H)) : ρ :=
  cs.foldl R.call router

/-- The dispatch rule in the words of the specification: the dedicated
function for the seven standard methods, the generic `Add` with a one-element
method list otherwise. -/
def viaSpec (method : String) : Via :=
  if method = "GET" then Via.Get
  else if method = "POST" then Via.Post
  else if method = "PUT" then Via.Put
  else if method = "DELETE" then Via.Delete
  else if method = "PATCH" then Via.Patch
  else if method = "HEAD" then Via.Head
  else if method = "OPTIONS" then Via.Options
  else Via.Add [method]

/-- A router that is the list of the registration calls it has received. -/
def traceRouter (H : Type) : FiberRouter H (List (Registration H)) :=
  { Get := fun r p h => r ++ [{ via := Via.Get, path := p, handler := h }]
    Post := fun r p h => r ++ [{ via := Via.Post, path := p, handler := h }]
    Put := fun r p h => r ++ [{ via := Via.Put, path := p, handler := h }]
    Delete := fun r p h => r ++ [{ via := Via.Delete, path := p, handler := h }]
    Patch := fun r p h => r ++ [{ via := Via.Patch, path := p, handler := h }]
    Head := fun r p h => r ++ [{ via := Via.Head, path := p, handler := h }]
    Options := fun r p h => r ++ [{ via := Via.Options, path := p, handler := h }]
    Add := fun r ms p h => r ++ [{ via := Via.Add ms, path := p, handler := h }] }

/-! ## adapter.go: the request tester -/

/-- The field of `fiber.TestConfig` the adapter sets: `Timeout`, a
`time.Duration` (an int64 count of nanoseconds).  The zero value has
`Timeout = 0`. -/
structure TestConfig where
  Timeout : Int
  deriving DecidableEq, Repr

/-- Go `time.Millisecond` in nanoseconds. -/
def Millisecond : Int := 1000000

/-- Two-complement wrap-around of an int64 result. -/
def wrapInt64 (x : Int) : Int :=
  (x + 2 ^ 63) % 2 ^ 64 - 2 ^ 63

/-- The `Test` method of a `*fiber.App`: a request and the variadic list of
test configurations. -/
structure App (Req Res : Type) where
  Test : Req → List TestConfig → Res

/-- The configuration that `(*fiberRequestTester).Test` builds. -/
def testConfigOf (msTimeout : List Int) : TestConfig :=
  let cfg : TestConfig := { Timeout := 0 }
  match msTimeout with
  | t :: _ => { cfg with Timeout := wrapInt64 (t * Millisecond) }
  | [] => cfg

/-- Model of `(*fiberRequestTester).Test`. -/
def fiberRequestTester.Test {Req Res : Type} (app : App Req Res) (req : Req)
    (msTimeout : List Int) : Res :=
  app.Test req [testConfigOf msTimeout]

/-! ## humafiber.go: ServeHTTP -/

/-- A byte. -/
abbrev Byte := Nat

/-- An `*http.Response` as `ServeHTTP` reads it.  `Header` lists the entries
of the header map in the order the `range` loop visits them (any order is
possible); `Body` is nil or a reader, given by the chunks its successive
`Read` calls deliver before the end of the stream. -/
structure HttpResponse where
  StatusCode : Int
  Header : List (String × List String)
  Body : Option (List (List Byte))

/-- The interface `requestTester` of humafiber.go. -/
structure requestTester (Req : Type) where
  Test : Req → List Int → Option HttpResponse × Option Error

/-- A call on the `http.ResponseWriter` (or on the header map `w.Header()`
returns). -/
inductive WriterCall where
  | HeaderAdd (key value : String)
  | WriteHeader (statusCode : Int)
  | Write (p : List Byte)
  deriving DecidableEq, Repr

/-- What one run of `ServeHTTP` did: the calls on the writer in order, the
number of `resp.Body.Close()` calls, and how the run ended. -/
structure ServeResult where
  calls : List WriterCall
  closes : Nat
  outcome : Outcome Unit

/-- The inner loop `for item := range v { h.Add(k, v[item]) }`. -/
def addValues (k : String) (v : List String) (calls : List WriterCall) : List WriterCall :=
  (List.range v.length).foldl
    (fun calls item => calls ++ [WriterCall.HeaderAdd k (v.getD item "")]) calls

/-- The outer loop `for k, v := range resp.Header`. -/
def copyHeader (header : List (String × List String)) (calls : List WriterCall) :
    List WriterCall :=
  header.foldl (fun calls kv => addValues kv.1 kv.2 calls) calls

/-- Go `io.Copy(w, body)` on a writer that accepts every write: each
non-empty chunk read is written with one `Write`. -/
def ioCopy (chunks : List (List Byte)) (calls : List WriterCall) : List WriterCall :=
  chunks.foldl (fun calls p => if p.length > 0 then calls ++ [WriterCall.Write p] else calls) calls

/-- Model of `(*fiberAdapter).ServeHTTP`, given the adapter's `tester` field.
The deferred close is registered when the response and its body are non-nil
and runs on every exit. -/
def ServeHTTP {Req : Type} (tester : requestTester Req) (r : Req) : ServeResult :=
  let (resp, err) := tester.Test r []
  let closes : Nat :=
    match resp with
    | some rp => if rp.Body.isSome then 1 else 0
    | none => 0
  match err with
  | some e => { calls := [], closes := closes, outcome := Outcome.panicked (PanicValue.err e) }
  | none =>
    match resp with
    | none =>
      { calls := [], closes := closes,
        outcome := Outcome.panicked
          (PanicValue.runtimeError "invalid memory address or nil pointer dereference") }
    | some rp =>
      let calls := copyHeader rp.Header []
      let calls := calls ++ [WriterCall.WriteHeader rp.StatusCode]
      match rp.Body with
      | none =>
        { calls := calls, closes := closes,
          outcome := Outcome.panicked
            (PanicValue.runtimeError "invalid memory address or nil pointer dereference") }
      | some chunks =>
        { calls := ioCopy chunks calls, closes := closes, outcome := Outcome.returned () }

/-- The values added under `key`, in call order. -/
def addedValues (key : String) (calls : List WriterCall) : List String :=
  calls.filterMap (fun c =>
    match c with
    | WriterCall.HeaderAdd k v => if k = key then some v else none
    | _ => none)

/-- The bytes written, in call order. -/
def writtenBytes (calls : List WriterCall) : List Byte :=
  calls.flatMap (fun c =>
    match c with
    | WriterCall.Write p => p
    | _ => [])

/-- The `Add` calls that copy a header in full: per entry, one call per value
in the order of the values. -/
def headerAdds (header : List (String × List String)) : List WriterCall :=
  header.flatMap (fun kv => kv.2.map (WriterCall.HeaderAdd kv.1))

/-! ## recoverer.go -/

/-- The struct `fiber.Error` as the middleware fills it. -/
structure FiberError where
  Message : String
  Code : Int
  deriving DecidableEq, Repr

/-- The constant `fiber.StatusInternalServerError`. -/
def StatusInternalServerError : Int := 500

/-- Modelled from the spec: the content type that fiber's `c.JSON` sets when
no other is given (the constant lives in fiber, outside this repository). -/
def MIMEApplicationJSON : String := "application/json"

/-- Runes that the JSON encoder copies into a string literal unescaped. -/
def jsonPlain (c : Char) : Bool :=
  decide (0x20 ≤ c.toNat) && decide (c.toNat < 0x7f) && !(c = '\x22') && !(c = '\x5c') &&
    !(c = '<') && !(c = '>') && !(c = '&')

/-- JSON string literal of a string made of unescaped runes only; other
strings are outside this model. -/
def jsonString (s : String) : Option String :=
  if s.data.all jsonPlain then some ("\x22" ++ s ++ "\x22") else none

/-- JSON encoding of a `fiber.Error`: an object with the fields of the
struct, `Message` under the name `message` and `Code` under the name `code`
(the names of fiber's field tags). -/
def jsonMarshalError (e : FiberError) : Option String :=
  (jsonString e.Message).map
    (fun m => "\x7b\x22message\x22:" ++ m ++ ",\x22code\x22:" ++ toString e.Code ++ "\x7d")

/-- fiber `c.JSON(data)`: on an encoding error the response is left as it is
and the error returned; otherwise the body is replaced by the encoding and the
content type set. -/
def Ctx.JSON (c : Ctx) (data : FiberError) : Ctx × Option Error :=
  match jsonMarshalError data with
  | none => (c, some { msg := "json: unsupported value" })
  | some raw =>
    ({ c with response := { c.response with body := raw, contentType := MIMEApplicationJSON } },
     none)

/-- What `c.Next()` did: the context as the downstream chain left it, and the
error it returned or the value it panicked with. -/
structure NextResult where
  ctx : Ctx
  result : Outcome (Option Error)

/-- Go `recover()` in the deferred function: the panic value when the
function is panicking, nil otherwise. -/
def recover (r : Outcome (Option Error)) : Option PanicValue :=
  match r with
  | Outcome.panicked v => some v
  | Outcome.returned _ => none

/-- Model of the handler that `Recovery()` returns; `next` is `c.Next`.  The
result is the context after the handler and the error it returns. -/
def Recovery (next : Ctx → NextResult) (c : Ctx) : Ctx × Option Error :=
  let r := next c
  match recover r.result with
  | some _ =>
    let sent := (r.ctx.Status StatusInternalServerError).JSON
      { Message := "internal server error", Code := StatusInternalServerError }
    (sent.1, none)
  | none =>
    match r.result with
    | Outcome.returned err => (r.ctx, err)
    | Outcome.panicked _ => (r.ctx, none)

/-! ## Derived notions used in the statements -/

/-- The snapshot of the user values of `rc` as a `contextWrapper` over the
context of `c`: one pair per stored pair, in storage order. -/
def snapshotWrapper (c : Ctx) (rc : RequestCtx) : contextWrapper :=
  { values := rc.userValues.map (fun kv => { Key := kv.1, Value := kv.2 }),
    Context := c.context }

/-- The context that the closure registered by `Handle` passes to the huma
handler, for a fiber context with request context `rc`. -/
def handlerContext (op : Operation) (c : Ctx) (rc : RequestCtx) : fiberWrapper :=
  { op := op, status := 0, orig := c, ctx := some (snapshotWrapper c rc) }

/-- The value the router's local store holds for a key: the user value of the
request context; nil (a miss) when the stored value is nil, when no pair has
the key or when there is no request context. -/
def localValue (c : Ctx) (key : GoAny) : GoAny :=
  match c.requestCtx with
  | some rc => rc.UserValue key
  | none => GoAny.nil

/-- A request tester that returns the same result for every request. -/
def constTester (resp : Option HttpResponse) (err : Option Error) : requestTester Unit :=
  { Test := fun _ _ => (resp, err) }

/-- An application whose `Test` returns the configurations it was called
with. -/
def echoApp : App Unit (List TestConfig) :=
  { Test := fun _ cfgs => cfgs }

/-- An empty fiber context with a given user-value store. -/
def blankCtx (kvs : List (GoAny × GoAny)) : Ctx :=
  { requestCtx := some { userValues := kvs },
    context := { Value := fun _ => GoAny.nil },
    response := { statusCode := 200, contentType := "", header := [], body := "" } }

/-- An adapter context around an empty fiber context, as the registered
closure builds it. -/
def blankWrapper : fiberWrapper :=
  handlerContext { Method := "GET", Path := "/" } (blankCtx []) { userValues := [] }

/-- The number of `Close` calls the specification asks for: one when the
response and its body are both non-nil, none otherwise. -/
def closesDue (resp : Option HttpResponse) : Nat :=
  match resp with
  | some rp => if rp.Body.isSome then 1 else 0
  | none => 0

/-- A response with a multi-valued header and a body read in three chunks,
one of them empty. -/
def sampleResponse : HttpResponse :=
  { StatusCode := 201,
    Header := [("Content-Type", ["text/plain"]), ("Set-Cookie", ["a=1", "b=2"])],
    Body := some [[104, 105], [], [33]] }

/-- A downstream chain that sets a status and a body and then panics. -/
def panickingNext (c : Ctx) : NextResult :=
  { ctx := { c with response := { c.response with statusCode := 200, body := "partial" } },
    result := Outcome.panicked (PanicValue.str "secret detail") }

/-- A downstream chain that sets status 404 and returns an error. -/
def failingNext (c : Ctx) : NextResult :=
  { ctx := c.Status 404, result := Outcome.returned (some { msg := "not found" }) }

/-! # Theorems -/

/-! ## Path translation -/

theorem replaceScan_single (a : Char) (new s : List Char) :
    replaceScan [a] new 0 s = s.flatMap (fun c => if c = a then new else [c]) := by
  induction s with
  | nil => simp [replaceScan]
  | cons c cs ih =>
    by_cases h : c = a
    · subst h
      simp [replaceScan, List.isPrefixOf, ih]
    · have h2 : ¬ a = c := fun e => h e.symm
      simp [replaceScan, List.isPrefixOf, ih, h, h2]

theorem stringsReplaceAllRunes_single (a : Char) (new s : List Char) (h : [a] ≠ new) :
    stringsReplaceAllRunes s [a] new = s.flatMap (fun c => if c = a then new else [c]) := by
  simp [stringsReplaceAllRunes, h, replaceScan_single]

theorem translate_runes (p : List Char) :
    stringsReplaceAllRunes (stringsReplaceAllRunes p ['\x7b'] [':']) ['\x7d'] [] =
      translatePathSpec p := by
  rw [stringsReplaceAllRunes_single _ _ _ (by decide),
    stringsReplaceAllRunes_single _ _ _ (by decide)]
  unfold translatePathSpec
  induction p with
  | nil => rfl
  | cons c cs ih =>
    simp only [List.flatMap_cons, List.flatMap_append, ih]
    by_cases h1 : c = '\x7b'
    · subst h1; simp
    · by_cases h2 : c = '\x7d'
      · subst h2; simp
      · simp [h1, h2]

/-- C1: for every router, operation and handler, `Handle` calls `router.Add`
once, with the method `op.Method` unchanged and with the path obtained from
`op.Path` by turning every opening brace into a colon and deleting every
closing brace, all other runes kept in order; `/widgets/{id}` is registered as
`/widgets/:id`. -/
theorem C1_Handle_path_translation {α ρ : Type} (r : router (Handler α) ρ) (op : Operation)
    (handler : HumaContext → α) :
    Handle r op handler =
        r.Add op.Method ⟨translatePathSpec op.Path.data⟩ [handleClosure op handler] ∧
      Handle (recordingRouter (Handler α)) { Method := "GET", Path := "/widgets/\x7bid\x7d" }
          handler =
        ("GET", "/widgets/:id",
          [handleClosure { Method := "GET", Path := "/widgets/\x7bid\x7d" } handler]) := by
  have key : ∀ o : Operation, ∀ (ρ2 : Type) (r2 : router (Handler α) ρ2),
      Handle r2 o handler =
        r2.Add o.Method ⟨translatePathSpec o.Path.data⟩ [handleClosure o handler] := by
    intro o ρ2 r2
    simp only [Handle, stringsReplaceAll]
    congr 2
    exact translate_runes o.Path.data
  refine ⟨key op ρ r, ?_⟩
  rw [key]
  simp only [recordingRouter]
  have e : (⟨translatePathSpec "/widgets/\x7bid\x7d".data⟩ : String) = "/widgets/:id" := by
    decide
  rw [e]

/-! ## Method dispatch -/

theorem Add_eq_callAll {H ρ : Type} (R : FiberRouter H ρ) (router : ρ) (method path : String)
    (handlers : List H) :
    fiberRouterAdapter.Add R router method path handlers =
      R.callAll router
        (handlers.map (fun h => { via := viaSpec method, path := path, handler := h })) := by
  by_cases h1 : method = "GET"
  · subst h1
    simp [fiberRouterAdapter.Add, viaSpec, FiberRouter.callAll, List.foldl_map, FiberRouter.call]
  by_cases h2 : method = "POST"
  · subst h2
    simp [fiberRouterAdapter.Add, viaSpec, FiberRouter.callAll, List.foldl_map, FiberRouter.call]
  by_cases h3 : method = "PUT"
  · subst h3
    simp [fiberRouterAdapter.Add, viaSpec, FiberRouter.callAll, List.foldl_map, FiberRouter.call]
  by_cases h4 : method = "DELETE"
  · subst h4
    simp [fiberRouterAdapter.Add, viaSpec, FiberRouter.callAll, List.foldl_map, FiberRouter.call]
  by_cases h5 : method = "PATCH"
  · subst h5
    simp [fiberRouterAdapter.Add, viaSpec, FiberRouter.callAll, List.foldl_map, FiberRouter.call]
  by_cases h6 : method = "HEAD"
  · subst h6
    simp [fiberRouterAdapter.Add, viaSpec, FiberRouter.callAll, List.foldl_map, FiberRouter.call]
  by_cases h7 : method = "OPTIONS"
  · subst h7
    simp [fiberRouterAdapter.Add, viaSpec, FiberRouter.callAll, List.foldl_map, FiberRouter.call]
  · simp [fiberRouterAdapter.Add, viaSpec, FiberRouter.callAll, List.foldl_map, FiberRouter.call,
      h1, h2, h3, h4, h5, h6, h7]

theorem traceRouter_callAll {H : Type} (cs log : List (Registration H)) :
    (traceRouter H).callAll log cs = log ++ cs := by
  induction cs generalizing log with
  | nil => simp [FiberRouter.callAll]
  | cons c cs ih =>
    have step : (traceRouter H).call log c = log ++ [c] := by
      cases c with
      | mk via path handler => cases via <;> rfl
    simp only [FiberRouter.callAll, List.foldl_cons] at ih ⊢
    rw [step, ih]
    simp

/-- C2: for every method, path and handler list, on every router `Add` has
the effect of issuing one registration call per handler, in the order given,
each with the path unchanged and its handler, each on the router the previous
call returned; every call goes through the dedicated function when the method
is GET, POST, PUT, DELETE, PATCH, HEAD or OPTIONS and through the generic
`Add` with the one-element method list otherwise.  On a router that records
its calls the record grows by exactly these `n` calls. -/
theorem C2_Add_registers_each_handler {H ρ : Type} (R : FiberRouter H ρ) (router : ρ)
    (method path : String) (handlers : List H) (log : List (Registration H)) :
    fiberRouterAdapter.Add R router method path handlers =
        R.callAll router
          (handlers.map (fun h => { via := viaSpec method, path := path, handler := h })) ∧
      fiberRouterAdapter.Add (traceRouter H) log method path handlers =
        log ++ handlers.map (fun h => { via := viaSpec method, path := path, handler := h }) ∧
      (fiberRouterAdapter.Add (traceRouter H) log method path handlers).length =
        log.length + handlers.length ∧
      viaSpec "GET" = Via.Get ∧ viaSpec "POST" = Via.Post ∧ viaSpec "PUT" = Via.Put ∧
      viaSpec "DELETE" = Via.Delete ∧ viaSpec "PATCH" = Via.Patch ∧
      viaSpec "HEAD" = Via.Head ∧ viaSpec "OPTIONS" = Via.Options ∧
      (method ∈ ["GET", "POST", "PUT", "DELETE", "PATCH", "HEAD", "OPTIONS"] ∨
        viaSpec method = Via.Add [method]) := by
  refine ⟨Add_eq_callAll R router method path handlers, ?_, ?_, by decide, by decide, by decide,
    by decide, by decide, by decide, by decide, ?_⟩
  · rw [Add_eq_callAll, traceRouter_callAll]
  · rw [Add_eq_callAll, traceRouter_callAll]
    simp
  · by_cases h : method ∈ ["GET", "POST", "PUT", "DELETE", "PATCH", "HEAD", "OPTIONS"]
    · exact Or.inl h
    · refine Or.inr ?_
      simp only [List.mem_cons, List.mem_singleton, not_or, List.not_mem_nil, or_false] at h
      obtain ⟨h1, h2, h3, h4, h5, h6, h7⟩ := h
      simp [viaSpec, h1, h2, h3, h4, h5, h6, h7]

/-! ## The merged context -/

theorem snapshot_eq_map (kvs : List (GoAny × GoAny)) (init : List contextWrapperValue) :
    kvs.foldl (fun (values : List contextWrapperValue) kv =>
        values ++ [{ Key := kv.1, Value := kv.2 }]) init =
      init ++ kvs.map (fun kv => { Key := kv.1, Value := kv.2 }) := by
  induction kvs generalizing init with
  | nil => simp
  | cons kv kvs ih => simp [ih]

theorem lookup_map (key : GoAny) (kvs : List (GoAny × GoAny)) :
    contextWrapper.lookup key (kvs.map (fun kv => { Key := kv.1, Value := kv.2 })) =
      RequestCtx.UserValue { userValues := kvs } key := by
  induction kvs with
  | nil => rfl
  | cons kv kvs ih =>
    by_cases h : kv.1 = key
    · simp [contextWrapper.lookup, RequestCtx.UserValue, List.find?, h]
    · simp only [RequestCtx.UserValue] at ih
      simp [contextWrapper.lookup, RequestCtx.UserValue, List.find?, h, ih]

theorem handleClosure_some {α : Type} (op : Operation) (handler : HumaContext → α) (c : Ctx)
    (rc : RequestCtx) (h : c.requestCtx = some rc) :
    handleClosure op handler c =
      Outcome.returned (handler (HumaContext.fiberWrapper (handlerContext op c rc)), none) := by
  simp [handleClosure, h, RequestCtx.VisitUserValuesAll, snapshot_eq_map, handlerContext,
    snapshotWrapper]

theorem fiberContextWrapper_Value_eq (w : fiberWrapper) (key : GoAny) :
    w.Context.Value key =
      if w.orig.context.Value key ≠ GoAny.nil then w.orig.context.Value key
      else localValue w.orig key := by
  simp only [fiberWrapper.Context, fiberContextWrapper.Value, localValue, Ctx.Locals]
  by_cases hp : w.orig.context.Value key = GoAny.nil
  · cases hrc : w.orig.requestCtx with
    | none => simp [hp]
    | some rc =>
      by_cases hl : rc.UserValue key = GoAny.nil
      · simp [hp, hl]
      · simp [hp, hl]
  · simp [hp]

theorem contextWrapper_Value_snapshot (c : Ctx) (rc : RequestCtx) (key : GoAny) :
    (snapshotWrapper c rc).Value key =
      if c.context.Value key ≠ GoAny.nil then c.context.Value key else rc.UserValue key := by
  simp only [contextWrapper.Value, snapshotWrapper, lookup_map]

/-- C4: for every key, the merged context returned by `fiberWrapper.Context`
answers with the parent context's value when that value is non-nil, whatever
the local store holds, and with the local store's value otherwise; it answers
nil exactly when both the parent and the local store miss.  The same holds for
`contextWrapper.Value` over the pairs that the registered closure snapshots
from the store (the wrapper the closure builds is the one named here), so the
two lookups agree. -/
theorem C4_value_lookup_parent_first (parent : StdContext) (rc : RequestCtx)
    (store : Option RequestCtx) (resp : Response) (op : Operation) (status : Int)
    (ctx : Option contextWrapper) (key : GoAny) :
    ((fiberWrapper.Context
          { op := op, status := status, ctx := ctx,
            orig := { requestCtx := store, context := parent, response := resp } }).Value key =
        if parent.Value key ≠ GoAny.nil then parent.Value key
        else localValue { requestCtx := store, context := parent, response := resp } key) ∧
      ((fiberWrapper.Context
          { op := op, status := status, ctx := ctx,
            orig := { requestCtx := store, context := parent, response := resp } }).Value key =
          GoAny.nil ↔
        parent.Value key = GoAny.nil ∧
          localValue { requestCtx := store, context := parent, response := resp } key =
            GoAny.nil) ∧
      ((snapshotWrapper { requestCtx := some rc, context := parent, response := resp } rc).Value
          key =
        if parent.Value key ≠ GoAny.nil then parent.Value key else rc.UserValue key) ∧
      ((snapshotWrapper { requestCtx := some rc, context := parent, response := resp } rc).Value
          key = GoAny.nil ↔
        parent.Value key = GoAny.nil ∧ rc.UserValue key = GoAny.nil) ∧
      (snapshotWrapper { requestCtx := some rc, context := parent, response := resp } rc).Value
          key =
        (fiberWrapper.Context
          (handlerContext op { requestCtx := some rc, context := parent, response := resp }
            rc)).Value key ∧
      handleClosure op id { requestCtx := some rc, context := parent, response := resp } =
        Outcome.returned
          (HumaContext.fiberWrapper
            { op := op, status := 0,
              orig := { requestCtx := some rc, context := parent, response := resp },
              ctx := some
                (snapshotWrapper { requestCtx := some rc, context := parent, response := resp }
                  rc) },
            none) := by
  refine ⟨?_, ?_, ?_, ?_, ?_, handleClosure_some op id _ rc rfl⟩
  · exact fiberContextWrapper_Value_eq _ key
  · rw [fiberContextWrapper_Value_eq]
    by_cases hp : parent.Value key = GoAny.nil <;> simp [hp]
  · exact contextWrapper_Value_snapshot _ rc key
  · rw [contextWrapper_Value_snapshot]
    by_cases hp : parent.Value key = GoAny.nil <;> simp [hp]
  · rw [contextWrapper_Value_snapshot, fiberContextWrapper_Value_eq]
    simp [handlerContext, localValue]

/-! ## Status and unwrap -/

/-- C5 as stated fails at the status code 0: after `SetStatus(0)` the
adapter's `Status()` returns 0 while the underlying response reports 200, so
the two diverge. -/
theorem C5_status_zero_counterexample :
    (blankWrapper.SetStatus 0).Status = 0 ∧
      (blankWrapper.SetStatus 0).Unwrap.response.statusCode = 200 ∧
      (blankWrapper.SetStatus 0).Status ≠
        (blankWrapper.SetStatus 0).Unwrap.response.statusCode := by
  refine ⟨rfl, rfl, ?_⟩
  decide

/-- C5 amended: for every status code `S` other than 0 and every adapter
state, after `SetStatus(S)` the adapter's `Status()` is `S` and the status of
the underlying response (the one `Unwrap` gives access to) is `S` as well, so
the two agree; `Status()` returns the code set for every code `T`, 0
included; nothing else of the adapter or of the response changes. -/
theorem C5_SetStatus_roundtrip (c : fiberWrapper) (S : Int) (hS : S ≠ 0) (T : Int) :
    (c.SetStatus S).Status = S ∧
      (c.SetStatus S).orig.response.statusCode = S ∧
      (c.SetStatus S).Status = (c.SetStatus S).Unwrap.response.statusCode ∧
      (c.SetStatus T).Status = T ∧
      (c.SetStatus S).op = c.op ∧
      (c.SetStatus S).orig.response.body = c.orig.response.body ∧
      (c.SetStatus S).orig.response.header = c.orig.response.header ∧
      (c.SetStatus S).orig.response.contentType = c.orig.response.contentType := by
  simp [fiberWrapper.SetStatus, fiberWrapper.Status, fiberWrapper.Unwrap, Ctx.Status, hS]

/-- Witness of C5 amended: the status 404 set on a fresh adapter context. -/
theorem C5_SetStatus_roundtrip_witness :
    (404 : Int) ≠ 0 ∧
      ((blankWrapper.SetStatus 404).Status = 404 ∧
        (blankWrapper.SetStatus 404).orig.response.statusCode = 404 ∧
        (blankWrapper.SetStatus 404).Status =
          (blankWrapper.SetStatus 404).Unwrap.response.statusCode ∧
        (blankWrapper.SetStatus 0).Status = 0 ∧
        (blankWrapper.SetStatus 404).op = blankWrapper.op ∧
        (blankWrapper.SetStatus 404).orig.response.body = blankWrapper.orig.response.body ∧
        (blankWrapper.SetStatus 404).orig.response.header = blankWrapper.orig.response.header ∧
        (blankWrapper.SetStatus 404).orig.response.contentType =
          blankWrapper.orig.response.contentType) :=
  ⟨by decide, C5_SetStatus_roundtrip blankWrapper 404 (by decide) 0⟩

/-- C6: `Unwrap` panics exactly on the contexts that are not a `*fiberWrapper`
(with the message "not a humafiber context"); on a `*fiberWrapper` it returns
the fiber context the wrapper holds, and for the context that the registered
closure builds around the fiber context `c` it received, that is `c` itself:
run with `Unwrap` as the huma handler, the closure yields `c`. -/
theorem C6_Unwrap_panics_iff_foreign (ctx : HumaContext) (op : Operation) (rc : RequestCtx)
    (parent : StdContext) (resp : Response) :
    ((∃ v, Unwrap ctx = Outcome.panicked v) ↔ ¬ ∃ w, ctx = HumaContext.fiberWrapper w) ∧
      (∀ t, Unwrap (HumaContext.other t) =
        Outcome.panicked (PanicValue.str "not a humafiber context")) ∧
      (∀ w, Unwrap (HumaContext.fiberWrapper w) = Outcome.returned w.orig) ∧
      handleClosure op Unwrap { requestCtx := some rc, context := parent, response := resp } =
        Outcome.returned
          (Outcome.returned { requestCtx := some rc, context := parent, response := resp },
            none) := by
  refine ⟨?_, fun _ => rfl, fun _ => rfl, ?_⟩
  · cases ctx with
    | fiberWrapper w => simp [Unwrap]
    | other t => simp [Unwrap]
  · rw [handleClosure_some op Unwrap _ rc rfl]
    rfl

/-! ## ServeHTTP -/

theorem foldl_range_append (f : Nat → WriterCall) (n : Nat) (calls : List WriterCall) :
    (List.range n).foldl (fun calls item => calls ++ [f item]) calls =
      calls ++ (List.range n).map f := by
  induction n with
  | zero => simp
  | succ n ih => simp [List.range_succ, List.foldl_append, ih]

theorem range_map_getD (g : String → WriterCall) (v : List String) :
    (List.range v.length).map (fun item => g (v.getD item "")) = v.map g := by
  apply List.ext_getElem
  · simp
  · intro i h1 h2
    simp only [List.length_map, List.length_range] at h1
    simp [List.getD, List.getElem?_eq_getElem h1]

theorem addValues_eq (k : String) (v : List String) (calls : List WriterCall) :
    addValues k v calls = calls ++ v.map (WriterCall.HeaderAdd k) := by
  unfold addValues
  rw [foldl_range_append (fun item => WriterCall.HeaderAdd k (v.getD item "")),
    range_map_getD (WriterCall.HeaderAdd k)]

theorem copyHeader_eq (header : List (String × List String)) (calls : List WriterCall) :
    copyHeader header calls = calls ++ headerAdds header := by
  induction header generalizing calls with
  | nil => simp [copyHeader, headerAdds]
  | cons kv rest ih =>
    simp only [copyHeader, List.foldl_cons] at ih ⊢
    rw [ih, addValues_eq]
    simp [headerAdds]

theorem ioCopy_eq (chunks : List (List Byte)) (calls : List WriterCall) :
    ioCopy chunks calls =
      calls ++ (chunks.filter (fun p => decide (p.length > 0))).map WriterCall.Write := by
  induction chunks generalizing calls with
  | nil => simp [ioCopy]
  | cons p rest ih =>
    simp only [ioCopy, List.foldl_cons] at ih ⊢
    by_cases hp : p.length > 0
    · rw [if_pos hp, ih]
      simp [List.filter_cons, hp]
    · rw [if_neg hp, ih]
      simp [List.filter_cons, hp]

theorem writtenBytes_append (a b : List WriterCall) :
    writtenBytes (a ++ b) = writtenBytes a ++ writtenBytes b := by
  simp [writtenBytes]

theorem writtenBytes_headerAdds (header : List (String × List String)) :
    writtenBytes (headerAdds header) = [] := by
  simp only [writtenBytes, headerAdds, List.flatMap_eq_nil_iff]
  intro c hc
  simp only [List.mem_flatMap, List.mem_map] at hc
  obtain ⟨kv, _, v, _, rfl⟩ := hc
  rfl

theorem writtenBytes_writes (chunks : List (List Byte)) :
    writtenBytes ((chunks.filter (fun p => decide (p.length > 0))).map WriterCall.Write) =
      chunks.flatten := by
  induction chunks with
  | nil => simp [writtenBytes]
  | cons p rest ih =>
    by_cases hp : p.length > 0
    · simp only [writtenBytes] at ih
      simp [writtenBytes, List.filter_cons, hp, ih]
    · have : p = [] := by
        cases p with
        | nil => rfl
        | cons x xs => simp at hp
      subst this
      simp only [writtenBytes] at ih
      simp [writtenBytes, List.filter_cons, ih]

theorem addedValues_append (key : String) (a b : List WriterCall) :
    addedValues key (a ++ b) = addedValues key a ++ addedValues key b := by
  simp [addedValues]

theorem addedValues_writes (key : String) (ps : List (List Byte)) :
    addedValues key (ps.map WriterCall.Write) = [] := by
  induction ps with
  | nil => simp [addedValues]
  | cons p rest ih =>
    simp only [addedValues] at ih
    simp [addedValues, ih]

theorem addedValues_adds_same (key : String) (vs : List String) :
    addedValues key (vs.map (WriterCall.HeaderAdd key)) = vs := by
  induction vs with
  | nil => simp [addedValues]
  | cons v rest ih =>
    simp only [addedValues] at ih
    simp [addedValues, ih]

theorem addedValues_adds_other (key k : String) (vs : List String) (h : k ≠ key) :
    addedValues key (vs.map (WriterCall.HeaderAdd k)) = [] := by
  induction vs with
  | nil => simp [addedValues]
  | cons v rest ih =>
    simp only [addedValues] at ih
    simp [addedValues, ih, h]

theorem addedValues_headerAdds_absent (key : String) (header : List (String × List String))
    (h : key ∉ header.map Prod.fst) : addedValues key (headerAdds header) = [] := by
  induction header with
  | nil => simp [addedValues, headerAdds]
  | cons kv rest ih =>
    simp only [List.map_cons, List.mem_cons, not_or] at h
    have e : headerAdds (kv :: rest) = kv.2.map (WriterCall.HeaderAdd kv.1) ++ headerAdds rest := by
      simp [headerAdds]
    rw [e, addedValues_append, ih h.2, addedValues_adds_other key kv.1 kv.2 (fun x => h.1 x.symm)]
    rfl

theorem addedValues_headerAdds_mem (header : List (String × List String))
    (hk : (header.map Prod.fst).Nodup) (kv : String × List String) (hm : kv ∈ header) :
    addedValues kv.1 (headerAdds header) = kv.2 := by
  induction header with
  | nil => simp at hm
  | cons x rest ih =>
    have e : headerAdds (x :: rest) = x.2.map (WriterCall.HeaderAdd x.1) ++ headerAdds rest := by
      simp [headerAdds]
    simp only [List.map_cons, List.nodup_cons] at hk
    rw [e, addedValues_append]
    rcases List.mem_cons.mp hm with h | h
    · subst h
      rw [addedValues_adds_same, addedValues_headerAdds_absent _ _ hk.1]
      simp
    · have hne : x.1 ≠ kv.1 := by
        intro heq
        apply hk.1
        rw [heq]
        exact List.mem_map_of_mem Prod.fst h
      rw [addedValues_adds_other _ _ _ hne, ih hk.2 h]
      rfl

theorem ServeHTTP_success_calls {Req : Type} (tester : requestTester Req) (r : Req)
    (resp : HttpResponse) (chunks : List (List Byte))
    (htest : tester.Test r [] = (some resp, none)) (hbody : resp.Body = some chunks) :
    (ServeHTTP tester r).calls =
      headerAdds resp.Header ++ [WriterCall.WriteHeader resp.StatusCode] ++
        (chunks.filter (fun p => decide (p.length > 0))).map WriterCall.Write := by
  simp [ServeHTTP, htest, hbody, copyHeader_eq, ioCopy_eq]

/-- C7: when the simulation returns the response `resp` with a body and no
error, `ServeHTTP` first adds every value of every header entry of `resp` to
the writer's header (one `Add` per value, in the order of the values, so that
under each key of `resp` exactly its values are added in their order), then
writes `resp.StatusCode` with `WriteHeader`, then writes the chunks of the
body; the bytes written are exactly the bytes of the body in order, and the
call returns. -/
theorem C7_ServeHTTP_copies_response {Req : Type} (tester : requestTester Req) (r : Req)
    (resp : HttpResponse) (chunks : List (List Byte))
    (htest : tester.Test r [] = (some resp, none)) (hbody : resp.Body = some chunks)
    (hkeys : (resp.Header.map Prod.fst).Nodup) :
    (ServeHTTP tester r).calls =
        headerAdds resp.Header ++ [WriterCall.WriteHeader resp.StatusCode] ++
          (chunks.filter (fun p => decide (p.length > 0))).map WriterCall.Write ∧
      (∀ kv ∈ resp.Header, addedValues kv.1 (ServeHTTP tester r).calls = kv.2) ∧
      (∀ key, key ∉ resp.Header.map Prod.fst → addedValues key (ServeHTTP tester r).calls = []) ∧
      writtenBytes (ServeHTTP tester r).calls = chunks.flatten ∧
      (ServeHTTP tester r).outcome = Outcome.returned () := by
  have hc := ServeHTTP_success_calls tester r resp chunks htest hbody
  refine ⟨hc, ?_, ?_, ?_, ?_⟩
  · intro kv hm
    rw [hc, addedValues_append, addedValues_append, addedValues_writes,
      addedValues_headerAdds_mem _ hkeys kv hm]
    simp [addedValues]
  · intro key hm
    rw [hc, addedValues_append, addedValues_append, addedValues_writes,
      addedValues_headerAdds_absent _ _ hm]
    simp [addedValues]
  · rw [hc, writtenBytes_append, writtenBytes_append, writtenBytes_writes,
      writtenBytes_headerAdds]
    simp [writtenBytes]
  · simp [ServeHTTP, htest, hbody]

/-- Witness of C7: the sample response is copied call by call. -/
theorem C7_ServeHTTP_copies_response_witness :
    (constTester (some sampleResponse) none).Test () [] = (some sampleResponse, none) ∧
      sampleResponse.Body = some [[104, 105], [], [33]] ∧
      (sampleResponse.Header.map Prod.fst).Nodup ∧
      ((ServeHTTP (constTester (some sampleResponse) none) ()).calls =
          headerAdds sampleResponse.Header ++
              [WriterCall.WriteHeader sampleResponse.StatusCode] ++
            (([[104, 105], [], [33]] : List (List Byte)).filter
              (fun p => decide (p.length > 0))).map WriterCall.Write ∧
        (∀ kv ∈ sampleResponse.Header,
          addedValues kv.1 (ServeHTTP (constTester (some sampleResponse) none) ()).calls =
            kv.2) ∧
        (∀ key, key ∉ sampleResponse.Header.map Prod.fst →
          addedValues key (ServeHTTP (constTester (some sampleResponse) none) ()).calls = []) ∧
        writtenBytes (ServeHTTP (constTester (some sampleResponse) none) ()).calls =
          ([[104, 105], [], [33]] : List (List Byte)).flatten ∧
        (ServeHTTP (constTester (some sampleResponse) none) ()).outcome =
          Outcome.returned ()) :=
  ⟨rfl, rfl, by decide,
    C7_ServeHTTP_copies_response (constTester (some sampleResponse) none) () sampleResponse
      [[104, 105], [], [33]] rfl rfl (by decide)⟩

theorem ServeHTTP_closes {Req : Type} (tester : requestTester Req) (r : Req) :
    (ServeHTTP tester r).closes =
      closesDue (tester.Test r []).1 := by
  unfold ServeHTTP closesDue
  rcases tester.Test r [] with ⟨resp, err⟩
  cases err with
  | some e => rfl
  | none =>
    cases resp with
    | none => rfl
    | some rp =>
      cases hb : rp.Body with
      | none => simp [hb]
      | some chunks => simp [hb]

/-- C8: when the simulation returns an error, `ServeHTTP` panics with that
error and makes no call on the writer (no header added, no status written, no
body byte written); the body is closed once when the response and its body
are non-nil, on this error path and, for every tester, on every other path
(there is nothing to close otherwise). -/
theorem C8_ServeHTTP_error_is_fatal {Req : Type} (tester : requestTester Req) (r : Req)
    (resp : Option HttpResponse) (e : Error) (htest : tester.Test r [] = (resp, some e))
    (anyTester : requestTester Req) :
    (ServeHTTP tester r).outcome = Outcome.panicked (PanicValue.err e) ∧
      (ServeHTTP tester r).calls = [] ∧
      (ServeHTTP tester r).closes =
        closesDue resp ∧
      (ServeHTTP anyTester r).closes =
        closesDue (anyTester.Test r []).1 := by
  refine ⟨?_, ?_, ?_, ServeHTTP_closes anyTester r⟩
  · simp [ServeHTTP, htest]
  · simp [ServeHTTP, htest]
  · rw [ServeHTTP_closes, htest]

/-- Witness of C8: the simulation fails after having produced a response with
a body; the panic carries the error, the writer is untouched and the body is
closed once. -/
theorem C8_ServeHTTP_error_is_fatal_witness :
    (constTester (some sampleResponse) (some { msg := "test: timeout" })).Test () [] =
        (some sampleResponse, some { msg := "test: timeout" }) ∧
      ((ServeHTTP (constTester (some sampleResponse) (some { msg := "test: timeout" }))
            ()).outcome =
          Outcome.panicked (PanicValue.err { msg := "test: timeout" }) ∧
        (ServeHTTP (constTester (some sampleResponse) (some { msg := "test: timeout" }))
            ()).calls = [] ∧
        (ServeHTTP (constTester (some sampleResponse) (some { msg := "test: timeout" }))
            ()).closes =
          closesDue (some sampleResponse) ∧
        (ServeHTTP (constTester (some sampleResponse) none) ()).closes =
          closesDue ((constTester (some sampleResponse) none).Test () []).1) :=
  ⟨rfl,
    C8_ServeHTTP_error_is_fatal (constTester (some sampleResponse) (some { msg := "test: timeout" }))
      () (some sampleResponse) { msg := "test: timeout" } rfl
      (constTester (some sampleResponse) none)⟩

/-! ## The request tester -/

theorem wrapInt64_of_fits (x : Int) (h1 : -(2 ^ 63) ≤ x) (h2 : x < 2 ^ 63) : wrapInt64 x = x := by
  unfold wrapInt64
  omega

/-- C9 as stated fails in both halves.  Called with no timeout argument,
`Test` does not invoke the simulation with the configuration left out (the
call that selects the router's default): it passes one explicit zero-valued
configuration, `Timeout = 0`.  Called with the timeout 9223372036855 ms, it
invokes the simulation with a negative timeout of -9223372036854551616 ns (the
int64 product wraps around), not with 9223372036855 ms. -/
theorem C9_default_and_overflow_counterexample :
    fiberRequestTester.Test echoApp () [] = [{ Timeout := 0 }] ∧
      fiberRequestTester.Test echoApp () [] ≠ echoApp.Test () [] ∧
      fiberRequestTester.Test echoApp () [9223372036855] =
        [{ Timeout := -9223372036854551616 }] ∧
      fiberRequestTester.Test echoApp () [9223372036855] ≠
        [{ Timeout := 9223372036855 * Millisecond }] := by
  refine ⟨?_, ?_, ?_, ?_⟩ <;> decide

/-- C9 amended: `Test` always invokes the application's simulation once, with
the request unchanged and with exactly one explicit configuration.  Called
with no timeout argument that configuration is the zero value (`Timeout = 0`),
not the router's default selected by leaving the configuration out.  Called
with a timeout `t` (the first variadic argument, in milliseconds) whose
nanosecond count fits an int64, that is with
`-9223372036854 ≤ t ≤ 9223372036854`, the configuration's timeout is exactly
`t` milliseconds; for every `u` the timeout passed is the nanosecond count
`u * 1000000` wrapped to the int64 range. -/
theorem C9_Test_passes_explicit_config {Req Res : Type} (app : App Req Res) (req : Req)
    (t : Int) (rest : List Int) (hlo : -9223372036854 ≤ t) (hhi : t ≤ 9223372036854)
    (u : Int) :
    fiberRequestTester.Test app req [] = app.Test req [{ Timeout := 0 }] ∧
      fiberRequestTester.Test app req (t :: rest) =
        app.Test req [{ Timeout := t * Millisecond }] ∧
      fiberRequestTester.Test app req (u :: rest) =
        app.Test req [{ Timeout := wrapInt64 (u * 1000000) }] := by
  refine ⟨rfl, ?_, rfl⟩
  simp only [fiberRequestTester.Test, testConfigOf]
  rw [wrapInt64_of_fits]
  · simp only [Millisecond]; omega
  · simp only [Millisecond]; omega

/-- Witness of C9 amended: no timeout, a timeout of 250 ms, and a timeout
beyond the int64 range. -/
theorem C9_Test_passes_explicit_config_witness :
    (-9223372036854 : Int) ≤ 250 ∧ (250 : Int) ≤ 9223372036854 ∧
      (fiberRequestTester.Test echoApp () [] = echoApp.Test () [{ Timeout := 0 }] ∧
        fiberRequestTester.Test echoApp () (250 :: [7]) =
          echoApp.Test () [{ Timeout := 250 * Millisecond }] ∧
        fiberRequestTester.Test echoApp () (9223372036855 :: [7]) =
          echoApp.Test () [{ Timeout := wrapInt64 (9223372036855 * 1000000) }]) :=
  ⟨by decide, by decide,
    C9_Test_passes_explicit_config echoApp () 250 [7] (by decide) (by decide) 9223372036855⟩

/-! ## The recovery middleware -/

theorem jsonMarshalError_internal :
    jsonMarshalError { Message := "internal server error", Code := StatusInternalServerError } =
      some "\x7b\x22message\x22:\x22internal server error\x22,\x22code\x22:500\x7d" := by
  decide

theorem Recovery_panicked (next : Ctx → NextResult) (c after : Ctx) (v : PanicValue)
    (h : next c = { ctx := after, result := Outcome.panicked v }) :
    Recovery next c =
      ({ after with
          response :=
            { after.response with
              statusCode := 500,
              body := "\x7b\x22message\x22:\x22internal server error\x22,\x22code\x22:500\x7d",
              contentType := "application/json" } },
        none) := by
  simp only [Recovery, h, recover, Ctx.JSON, jsonMarshalError_internal, Ctx.Status]
  rfl

/-- C3 as stated fails: after a downstream panic the body the middleware
sends is the encoding of both fields of the error value, message and code,
`{"message":"internal server error","code":500}`, not the one-field object
`{"message":"internal server error"}`. -/
theorem C3_body_exact_counterexample :
    (Recovery panickingNext (blankCtx [])).1.response.body =
        "\x7b\x22message\x22:\x22internal server error\x22,\x22code\x22:500\x7d" ∧
      (Recovery panickingNext (blankCtx [])).1.response.body ≠
        "\x7b\x22message\x22:\x22internal server error\x22\x7d" := by
  rw [Recovery_panicked panickingNext (blankCtx []) _ _ rfl]
  constructor
  · rfl
  · decide

/-- C3 amended: for every request whose downstream chain panics, whatever
the panic value and whatever the chain had written before, the middleware
leaves a response with status exactly 500, content type `application/json`
and body exactly `{"message":"internal server error","code":500}`: the fixed
message and the status code, nothing of the panic value; the other headers
are left as the chain set them. -/
theorem C3_panic_gives_fixed_500 (next : Ctx → NextResult) (c after : Ctx) (v : PanicValue)
    (h : next c = { ctx := after, result := Outcome.panicked v }) :
    (Recovery next c).1.response.statusCode = 500 ∧
      (Recovery next c).1.response.contentType = "application/json" ∧
      (Recovery next c).1.response.body =
        "\x7b\x22message\x22:\x22internal server error\x22,\x22code\x22:500\x7d" ∧
      (Recovery next c).1.response.header = after.response.header := by
  rw [Recovery_panicked next c after v h]
  exact ⟨rfl, rfl, rfl, rfl⟩

/-- Witness of C3 amended: a chain that wrote status 200 and a partial body
before it panicked. -/
theorem C3_panic_gives_fixed_500_witness :
    panickingNext (blankCtx []) =
        { ctx :=
            { blankCtx [] with
              response := { (blankCtx []).response with statusCode := 200, body := "partial" } },
          result := Outcome.panicked (PanicValue.str "secret detail") } ∧
      ((Recovery panickingNext (blankCtx [])).1.response.statusCode = 500 ∧
        (Recovery panickingNext (blankCtx [])).1.response.contentType = "application/json" ∧
        (Recovery panickingNext (blankCtx [])).1.response.body =
          "\x7b\x22message\x22:\x22internal server error\x22,\x22code\x22:500\x7d" ∧
        (Recovery panickingNext (blankCtx [])).1.response.header = []) :=
  ⟨rfl, C3_panic_gives_fixed_500 panickingNext (blankCtx []) _ _ rfl⟩

/-- C10: when the downstream chain returns (with an error or nil), the
middleware returns exactly that value and leaves the context, hence the
response status, headers and body, exactly as the chain left it; when the
chain panics, the middleware returns a nil error and does not panic again. -/
theorem C10_Recovery_passes_through (next nextP : Ctx → NextResult) (c after afterP : Ctx)
    (err : Option Error) (v : PanicValue)
    (hret : next c = { ctx := after, result := Outcome.returned err })
    (hpanic : nextP c = { ctx := afterP, result := Outcome.panicked v }) :
    Recovery next c = (after, err) ∧ (Recovery nextP c).2 = none := by
  constructor
  · simp [Recovery, hret, recover]
  · rw [Recovery_panicked nextP c afterP v hpanic]

/-- Witness of C10: a chain that sets status 404 and returns an error, and a
chain that panics. -/
theorem C10_Recovery_passes_through_witness :
    failingNext (blankCtx []) =
        { ctx := (blankCtx []).Status 404,
          result := Outcome.returned (some { msg := "not found" }) } ∧
      panickingNext (blankCtx []) =
        { ctx :=
            { blankCtx [] with
              response := { (blankCtx []).response with statusCode := 200, body := "partial" } },
          result := Outcome.panicked (PanicValue.str "secret detail") } ∧
      (Recovery failingNext (blankCtx []) = ((blankCtx []).Status 404, some { msg := "not found" }) ∧
        (Recovery panickingNext (blankCtx [])).2 = none) :=
  ⟨rfl, rfl,
    C10_Recovery_passes_through failingNext panickingNext (blankCtx []) _ _ _ _ rfl rfl⟩

end GoUtils
